import Mathlib

set_option maxRecDepth 40000

/-!
Verification of the Robokassa payment-integration repository
(`robokassa_client.py`, `app.py`, `config.py`) against its specification.

The Python sources are shallowly embedded below:
* byte strings are `List Nat` (each element `< 256`),
* `hashlib.md5(...).hexdigest()` is a complete executable MD5 over `List Nat`,
* Python `dict`s are association lists with Python's insertion-order /
  overwrite-in-place update semantics,
* `decimal.Decimal` is a pair (integer mantissa, decimal exponent); the
  parser covers the plain `[sign] digits [. digits]` grammar this
  application exercises,
* each Flask handler is a pure function from (config, request data, order
  store) to (response, order store).
-/

/-! ## MD5 (`hashlib.md5`), executable -/

/-- 32-bit truncation modulus. -/
def m32 : Nat := 4294967296

/-- Bitwise complement on 32-bit words represented as `Nat`. -/
def not32 (x : Nat) : Nat := 4294967295 ^^^ x

/-- 32-bit left rotation. -/
def rotl32 (x c : Nat) : Nat := ((x <<< c) ||| (x >>> (32 - c))) % m32

/-- MD5 per-round shift amounts. -/
def md5S : List Nat :=
  [7, 12, 17, 22, 7, 12, 17, 22, 7, 12, 17, 22, 7, 12, 17, 22,
   5, 9, 14, 20, 5, 9, 14, 20, 5, 9, 14, 20, 5, 9, 14, 20,
   4, 11, 16, 23, 4, 11, 16, 23, 4, 11, 16, 23, 4, 11, 16, 23,
   6, 10, 15, 21, 6, 10, 15, 21, 6, 10, 15, 21, 6, 10, 15, 21]

/-- MD5 sine-derived round constants. -/
def md5K : List Nat :=
  [3614090360, 3905402710, 606105819, 3250441966,
   4118548399, 1200080426, 2821735955, 4249261313,
   1770035416, 2336552879, 4294925233, 2304563134,
   1804603682, 4254626195, 2792965006, 1236535329,
   4129170786, 3225465664, 643717713, 3921069994,
   3593408605, 38016083, 3634488961, 3889429448,
   568446438, 3275163606, 4107603335, 1163531501,
   2850285829, 4243563512, 1735328473, 2368359562,
   4294588738, 2272392833, 1839030562, 4259657740,
   2763975236, 1272893353, 4139469664, 3200236656,
   681279174, 3936430074, 3572445317, 76029189,
   3654602809, 3873151461, 530742520, 3299628645,
   4096336452, 1126891415, 2878612391, 4237533241,
   1700485571, 2399980690, 4293915773, 2240044497,
   1873313359, 4264355552, 2734768916, 1309151649,
   4149444226, 3174756917, 718787259, 3951481745]

/-- Internal MD5 state: the four 32-bit registers. -/
structure MD5State where
  a : Nat
  b : Nat
  c : Nat
  d : Nat
deriving DecidableEq

/-- One MD5 round (round index `i`, message-word accessor `m`). -/
def md5Step (m : Nat → Nat) (st : MD5State) (i : Nat) : MD5State :=
  let fg : Nat × Nat :=
    if i < 16 then ((st.b &&& st.c) ||| (not32 st.b &&& st.d), i)
    else if i < 32 then ((st.d &&& st.b) ||| (not32 st.d &&& st.c), (5 * i + 1) % 16)
    else if i < 48 then (st.b ^^^ st.c ^^^ st.d, (3 * i + 5) % 16)
    else (st.c ^^^ (st.b ||| not32 st.d), (7 * i) % 16)
  let f := (fg.1 + st.a + md5K.getD i 0 + m fg.2) % m32
  { a := st.d, d := st.c, c := st.b, b := (st.b + rotl32 f (md5S.getD i 0)) % m32 }

/-- Little-endian 32-bit word `j` of a 64-byte chunk. -/
def word32le (chunk : List Nat) (j : Nat) : Nat :=
  chunk.getD (4 * j) 0 + 256 * chunk.getD (4 * j + 1) 0 +
    65536 * chunk.getD (4 * j + 2) 0 + 16777216 * chunk.getD (4 * j + 3) 0

/-- Process one 64-byte chunk. -/
def md5ProcessChunk (st : MD5State) (chunk : List Nat) : MD5State :=
  let r := (List.range 64).foldl (md5Step (word32le chunk)) st
  ⟨(st.a + r.a) % m32, (st.b + r.b) % m32, (st.c + r.c) % m32, (st.d + r.d) % m32⟩

/-- Split a byte list into 64-byte chunks (structural recursion on a fuel
argument so the kernel can evaluate it; `l.length` steps always suffice). -/
def toChunks64Aux : Nat → List Nat → List (List Nat)
  | 0, _ => []
  | _ + 1, [] => []
  | fuel + 1, a :: as => (a :: as).take 64 :: toChunks64Aux fuel ((a :: as).drop 64)

/-- Split a byte list into 64-byte chunks. -/
def toChunks64 (l : List Nat) : List (List Nat) := toChunks64Aux l.length l

/-- `n` as 8 little-endian bytes. -/
def le8Bytes (n : Nat) : List Nat := (List.range 8).map fun i => (n >>> (8 * i)) % 256

/-- `n` as 4 little-endian bytes. -/
def le4Bytes (n : Nat) : List Nat := (List.range 4).map fun i => (n >>> (8 * i)) % 256

/-- MD5 padding: `0x80`, zeros to 56 mod 64, 8-byte little-endian bit length. -/
def md5Pad (msg : List Nat) : List Nat :=
  msg ++ [128] ++ List.replicate ((119 - msg.length % 64) % 64) 0 ++
    le8Bytes ((8 * msg.length) % (m32 * m32))

/-- MD5 initial state. -/
def md5Init : MD5State := ⟨1732584193, 4023233417, 2562383102, 271733878⟩

/-- The 16-byte MD5 digest of a byte message. -/
def md5Bytes (msg : List Nat) : List Nat :=
  let st := (toChunks64 (md5Pad msg)).foldl md5ProcessChunk md5Init
  le4Bytes st.a ++ le4Bytes st.b ++ le4Bytes st.c ++ le4Bytes st.d

/-! ## Python string primitives -/

/-- The sixteen lower-case hexadecimal digit characters. -/
def hexDigits : List Char :=
  ['0', '1', '2', '3', '4', '5', '6', '7'] ++ ['8', '9', 'a', 'b', 'c', 'd', 'e', 'f']

/-- Lower-case hexadecimal digit for `n < 16`. -/
def hexChar (n : Nat) : Char := hexDigits.getD n '0'

/-- `bytes.hexdigest()`-style lower-case hex rendering of a byte list. -/
def bytesToHex (bs : List Nat) : String :=
  String.mk (bs.flatMap fun b => [hexChar (b / 16), hexChar (b % 16)])

/-- UTF-8 encoding of one code point (Python `str.encode("utf-8")`, per char). -/
def utf8Char (c : Char) : List Nat :=
  let n := c.toNat
  if n < 128 then [n]
  else if n < 2048 then [192 + n / 64, 128 + n % 64]
  else if n < 65536 then [224 + n / 4096, 128 + (n / 64) % 64, 128 + n % 64]
  else [240 + n / 262144, 128 + (n / 4096) % 64, 128 + (n / 64) % 64, 128 + n % 64]

/-- Python `s.encode("utf-8")`. -/
def utf8Encode (s : String) : List Nat := s.data.flatMap utf8Char

/-- ASCII upper-casing of one character (Python `str.upper` on the ASCII
strings this application handles). -/
def asciiUpperChar (c : Char) : Char :=
  if 97 ≤ c.toNat ∧ c.toNat ≤ 122 then Char.ofNat (c.toNat - 32) else c

/-- ASCII lower-casing of one character (Python `str.lower`). -/
def asciiLowerChar (c : Char) : Char :=
  if 65 ≤ c.toNat ∧ c.toNat ≤ 90 then Char.ofNat (c.toNat + 32) else c

/-- Python `s.upper()`. -/
def pyUpper (s : String) : String := String.mk (s.data.map asciiUpperChar)

/-- Python `s.lower()`. -/
def pyLower (s : String) : String := String.mk (s.data.map asciiLowerChar)

/-- Python `s.strip()`: remove leading and trailing whitespace. -/
def pyStrip (s : String) : String :=
  let ws : List Char := [' ', '\t', '\n', '\x0d', '\x0b', '\x0c']
  String.mk (((s.data.dropWhile (· ∈ ws)).reverse.dropWhile (· ∈ ws)).reverse)

/-- Python `s.startswith(p)` (code-point-wise prefix test). -/
def pyStartsWith (s p : String) : Bool := p.data.isPrefixOf s.data

/-- Python `s[n:]` (drop the first `n` code points). -/
def pyDrop (s : String) (n : Nat) : String := String.mk (s.data.drop n)

/-- Python `<` on strings: lexicographic comparison of code points. -/
def charListLt : List Char → List Char → Bool
  | _, [] => false
  | [], _ :: _ => true
  | a :: as, b :: bs => a.toNat < b.toNat || (a.toNat == b.toNat && charListLt as bs)

/-- Python `a < b` on strings. -/
def strLtB (a b : String) : Bool := charListLt a.data b.data

/-! ## `robokassa_client.py` -/

/-- `_md5_upper`: `hashlib.md5(s.encode("utf-8")).hexdigest().upper()`. -/
def md5_upper (s : String) : String := pyUpper (bytesToHex (md5Bytes (utf8Encode s)))

/-- The comparison Python's `sorted(..., key=lambda x: x[0])` realizes:
keep `p` before `q` unless `q`'s key is strictly below `p`'s. -/
def keyLeB (p q : String × String) : Bool := !(strLtB q.1 p.1)

/-- `keyLeB` as a decidable relation, for sorting. -/
def keyLe (p q : String × String) : Prop := keyLeB p q = true

instance : DecidableRel keyLe := fun p q => instDecidableEqBool (keyLeB p q) true

/-- `_format_shp_part`: `Shp_key=value` pairs joined by `:`, keys in
ascending order, empty string for the empty mapping.  The `shp` dict is
embedded as an association list (distinct keys), and Python's `sorted` as
insertion sort, which agrees with it on every list with distinct keys. -/
def format_shp_part (shp : List (String × String)) : String :=
  if shp = [] then ""
  else String.intercalate ":"
    ((shp.insertionSort keyLe).map fun p => "Shp_" ++ p.1 ++ "=" ++ p.2)

/-- `verify_signature_from_result`: recompute
`OutSum:InvId:Password2[:Shp_...]` and compare digests, upper-casing the
submitted signature. -/
def verify_signature_from_result (out_sum inv_id signature_value password2 : String)
    (shp : List (String × String)) : Bool :=
  let base := out_sum ++ ":" ++ inv_id ++ ":" ++ password2
  let shp_p := format_shp_part shp
  let base := if shp_p ≠ "" then base ++ ":" ++ shp_p else base
  md5_upper base == pyUpper signature_value

/-- Python-`dict` assignment `d[k] = v` on an association list: overwrite in
place if the key is present, append otherwise. -/
def dictInsert {α : Type} (d : List (String × α)) (k : String) (v : α) :
    List (String × α) :=
  if d.any (·.1 == k) then d.map fun p => if p.1 == k then (k, v) else p
  else d ++ [(k, v)]

/-- Python `d.get(k)` on an association list. -/
def dictGet {α : Type} (d : List (String × α)) (k : String) : Option α :=
  (d.find? (·.1 == k)).map (·.2)

def ROBOKASSA_GATEWAY : String := "https://auth.robokassa.ru/Merchant/Index.aspx"

/-- `urllib.parse.quote_plus` with default safe set: keep ASCII
alphanumerics and `_.-~`, encode space as `+`, percent-encode every other
byte of the UTF-8 encoding in upper-case hex. -/
def quote_plus (s : String) : String :=
  String.mk <| s.data.flatMap fun c =>
    if (97 ≤ c.toNat ∧ c.toNat ≤ 122) ∨ (65 ≤ c.toNat ∧ c.toNat ≤ 90) ∨
        (48 ≤ c.toNat ∧ c.toNat ≤ 57) ∨ c = '_' ∨ c = '.' ∨ c = '-' ∨ c = '~' then [c]
    else if c = ' ' then ['+']
    else (utf8Char c).flatMap fun b =>
      ['%', asciiUpperChar (hexChar (b / 16)), asciiUpperChar (hexChar (b % 16))]

/-- `urllib.parse.urlencode(params, quote_via=quote_plus)`. -/
def urlencode (params : List (String × String)) : String :=
  String.intercalate "&" (params.map fun p => quote_plus p.1 ++ "=" ++ quote_plus p.2)

/-- The query-parameter dict assembled by `build_payment_url`, in Python
insertion order: the four signed fields, optional `Description`, optional
`IsTest`, one `Shp_<key>` parameter per extension pair, then caller extras
layered on top (possibly overwriting). -/
def build_payment_params (merchant_login password1 out_sum inv_id : String)
    (description : Option String) (shp : List (String × String)) (is_test : Bool)
    (extra_params : List (String × String)) : List (String × String) :=
  let base_for_sign := merchant_login ++ ":" ++ out_sum ++ ":" ++ inv_id ++ ":" ++ password1
  let shp_p := format_shp_part shp
  let base_for_sign := if shp_p ≠ "" then base_for_sign ++ ":" ++ shp_p else base_for_sign
  let signature := md5_upper base_for_sign
  let params := [("MerchantLogin", merchant_login), ("OutSum", out_sum),
                 ("InvId", inv_id), ("SignatureValue", signature)]
  let params := match description with
    | some d => if d ≠ "" then dictInsert params "Description" d else params
    | none => params
  let params := if is_test then dictInsert params "IsTest" "1" else params
  let params := shp.foldl (fun ps p => dictInsert ps ("Shp_" ++ p.1) p.2) params
  extra_params.foldl (fun ps p => dictInsert ps p.1 p.2) params

/-- `build_payment_url`: the gateway entry point plus the urlencoded query. -/
def build_payment_url (merchant_login password1 out_sum inv_id : String)
    (description : Option String) (shp : List (String × String)) (is_test : Bool)
    (extra_params : List (String × String)) : String :=
  ROBOKASSA_GATEWAY ++ "?" ++
    urlencode (build_payment_params merchant_login password1 out_sum inv_id
      description shp is_test extra_params)

/-! ## `decimal.Decimal` -/

/-- A decimal number: integer mantissa `m` scaled by `10 ^ e`.  Mirrors the
`decimal.Decimal` values this application constructs. -/
structure Dec where
  m : Int
  e : Nat
deriving DecidableEq

/-- Value of the digit characters `cs` read in base 10. -/
def digitsToNat (cs : List Char) : Nat := cs.foldl (fun acc c => 10 * acc + (c.toNat - 48)) 0

/-- Python `s.split('.')` at the code-point level. -/
def splitOnDot : List Char → List (List Char)
  | [] => [[]]
  | c :: rest =>
      let r := splitOnDot rest
      if c = '.' then [] :: r
      else match r with
        | [] => [[c]]
        | h :: t => (c :: h) :: t

/-- `decimal.Decimal(s)` on the plain `[sign] digits [. digits]` grammar this
application exercises (`None` models the raised `InvalidOperation`). -/
def parseDecimal (s : String) : Option Dec :=
  let sign : Bool := pyStartsWith s "-"
  let rest := if pyStartsWith s "-" ∨ pyStartsWith s "+" then (pyDrop s 1).data else s.data
  match splitOnDot rest with
  | [intPart] =>
      if intPart ≠ [] ∧ intPart.all (fun c => 48 ≤ c.toNat ∧ c.toNat ≤ 57) then
        some ⟨(if sign then -1 else 1) * (digitsToNat intPart : Int), 0⟩
      else none
  | [intPart, fracPart] =>
      if (intPart ≠ [] ∨ fracPart ≠ []) ∧
          intPart.all (fun c => 48 ≤ c.toNat ∧ c.toNat ≤ 57) ∧
          fracPart.all (fun c => 48 ≤ c.toNat ∧ c.toNat ≤ 57) then
        some ⟨(if sign then -1 else 1) * (digitsToNat (intPart ++ fracPart) : Int),
              fracPart.length⟩
      else none
  | _ => none

/-- Python `str(d)` for a `Decimal` built by `parseDecimal`. -/
def decToString (d : Dec) : String :=
  let sign := if d.m < 0 then "-" else ""
  let digits := Nat.repr d.m.natAbs
  if d.e = 0 then sign ++ digits
  else
    let digits :=
      if digits.length ≤ d.e then String.mk (List.replicate (d.e + 1 - digits.length) '0') ++ digits
      else digits
    sign ++ String.mk (digits.data.take (digits.length - d.e)) ++ "." ++
      String.mk (digits.data.drop (digits.length - d.e))

/-! ## `app.py` -/

/-- The `robokassa` sub-dict `_update_order_status` attaches on a callback:
`{"OutSum": out_sum, "shp": shp}` (these two keys are the only ones the
program ever writes into it). -/
structure RkData where
  outSum : String
  shp : List (String × String)
deriving DecidableEq

/-- One record of the `ORDERS` dict.  `amount`/`description` are `none` in
the minimal records the safety branch of `_update_order_status` creates
(`{"id": ..., "amount": None, "description": None, "status": ...}`, which
also lacks `shp`/`robokassa` keys — modelled as `[]`/`none`, matching every
`​.get` the program performs on them). -/
structure Order where
  id : String
  amount : Option Dec
  description : Option String
  status : String
  shp : List (String × String)
  robokassa : Option RkData
deriving DecidableEq

/-- The process-wide `ORDERS` dict. -/
abbrev Store := List (String × Order)

/-- The configuration values `app.py` reads (`config.py` defaults). -/
structure Config where
  merchantLogin : String
  password1 : String
  password2 : String
  testMode : Bool
deriving DecidableEq

/-- `Config` with the defaults from `config.py`. -/
def defaultConfig : Config := ⟨"robo-demo", "password1", "password2", true⟩

/-- The responses the handlers produce. -/
inductive Resp where
  /-- `redirect(...)` -/
  | redirect (url : String)
  /-- `(msg, 400)` -/
  | badRequest (msg : String)
  /-- `("Order not found", 404)` -/
  | notFound (msg : String)
  /-- `f"OK{inv_id}"` with status 200 -/
  | okText (body : String)
  /-- `render_template("fail.html", ...), code` -/
  | failPage (msg : String) (code : Nat)
  /-- `render_template("success.html", order_id=..., ...)` -/
  | successPage (orderId : String)
  /-- an uncaught exception, rendered by the 500 handler -/
  | serverError
deriving DecidableEq

/-- `_update_order_status`: overwrite the status (and merge the callback
data) of an existing record, or create a minimal record — in which case the
function returns before touching `robokassa_data`. -/
def update_order_status (s : Store) (orderId status : String) (rk : Option RkData) : Store :=
  match dictGet s orderId with
  | none => dictInsert s orderId ⟨orderId, none, none, status, [], none⟩
  | some o =>
      let o := { o with status := status }
      let o := match rk with
        | none => o
        | some d => { o with robokassa := some d }
      dictInsert s orderId o

/-- `create_order` (`POST /create-order`): parse the form amount, default
the description, choose `order_id` (`str(len(ORDERS) + 1000)` when absent
or empty), and insert a fresh `created` record; `400` when `Decimal`
rejects the amount.  No positivity or description check happens here. -/
def create_order (form : List (String × String)) (s : Store) : Resp × Store :=
  let amount := pyStrip ((dictGet form "amount").getD "0")
  let description := pyStrip ((dictGet form "description").getD "Заказ")
  let orderId := match dictGet form "order_id" with
    | some oid => if oid = "" then Nat.repr (s.length + 1000) else oid
    | none => Nat.repr (s.length + 1000)
  match parseDecimal amount with
  | none => (Resp.badRequest "Некорректная сумма", s)
  | some amountDec =>
      (Resp.redirect "index",
        dictInsert s orderId
          ⟨orderId, some amountDec, some description, "created", [("user", "demo")], none⟩)

/-- `create_payment` (`POST /create-payment`): look the order up, validate
via `_validate_order_parameters` (`Decimal(None)` raises `TypeError`,
surfaced by the 500 handler), build the gateway URL, and set the status to
`pending` — regardless of the previous status. -/
def create_payment (cfg : Config) (form : List (String × String)) (s : Store) : Resp × Store :=
  match dictGet form "order_id" with
  | none => (Resp.badRequest "order_id required", s)
  | some orderId =>
    if orderId = "" then (Resp.badRequest "order_id required", s)
    else match dictGet s orderId with
    | none => (Resp.notFound "Order not found", s)
    | some order =>
      match order.amount with
      | none => (Resp.serverError, s)
      | some amount =>
        if amount.m ≤ 0 then (Resp.badRequest "Amount must be positive", s)
        else if (match order.description with | none => true | some d => d = "") then
          (Resp.badRequest "Description required", s)
        else
          let url := build_payment_url cfg.merchantLogin cfg.password1 (decToString amount)
            orderId order.description order.shp cfg.testMode []
          (Resp.redirect url, update_order_status s orderId "pending" none)

/-- The `Shp_`-parameter extraction both result handlers perform:
`{k[4:]: v for k, v in request.args.items() if k.startswith("Shp_")}`. -/
def extract_shp (args : List (String × String)) : List (String × String) :=
  (args.filter fun p => pyStartsWith p.1 "Shp_").map fun p => (pyDrop p.1 4, p.2)

/-- `payment_success` (`GET /payment/success`): recompute the Password1
signature over the returned query parameters and render a page; the order
store is only read (for display), never written. -/
def payment_success (cfg : Config) (args : List (String × String)) (s : Store) : Resp × Store :=
  let outSum := (dictGet args "OutSum").getD ""
  let invId := (dictGet args "InvId").getD ""
  let signature := (dictGet args "SignatureValue").getD ""
  let shp := extract_shp args
  let base := cfg.merchantLogin ++ ":" ++ outSum ++ ":" ++ invId ++ ":" ++ cfg.password1
  let shp_p := format_shp_part shp
  let base := if shp_p ≠ "" then base ++ ":" ++ shp_p else base
  let expected := md5_upper base
  if expected ≠ pyUpper signature then (Resp.failPage "Invalid signature" 400, s)
  else (Resp.successPage invId, s)

/-- `payment_result` (`POST /payment/result`): `400` on a missing/empty
`InvId`, `400` on signature failure, otherwise mark the order `paid`
(recording the callback data) and acknowledge with `OK{InvId}`. -/
def payment_result (cfg : Config) (form : List (String × String)) (s : Store) : Resp × Store :=
  let outSum := (dictGet form "OutSum").getD ""
  let signature := (dictGet form "SignatureValue").getD ""
  let shp := extract_shp form
  match dictGet form "InvId" with
  | none => (Resp.badRequest "InvId missing", s)
  | some invId =>
    if invId = "" then (Resp.badRequest "InvId missing", s)
    else if ¬ verify_signature_from_result outSum invId signature cfg.password2 shp then
      (Resp.badRequest "Invalid signature", s)
    else
      (Resp.okText ("OK" ++ invId), update_order_status s invId "paid" (some ⟨outSum, shp⟩))

/-! ## Helper lemmas: characters and lexicographic comparison -/

theorem data_mk (l : List Char) : (String.mk l).data = l := rfl

theorem charToNat_inj {a b : Char} (h : a.toNat = b.toNat) : a = b := by
  cases a; cases b
  simp only [Char.toNat] at h
  congr 1
  exact UInt32.toNat.inj h

theorem charListLt_asymm : ∀ a b, charListLt a b = true → charListLt b a = false := by
  intro a
  induction a with
  | nil =>
    intro b h
    cases b with
    | nil => simp [charListLt] at h
    | cons y ys => simp [charListLt]
  | cons x xs ih =>
    intro b h
    cases b with
    | nil => simp [charListLt] at h
    | cons y ys =>
      simp only [charListLt, Bool.or_eq_true, Bool.and_eq_true, decide_eq_true_eq,
        beq_iff_eq] at h
      simp only [charListLt, Bool.or_eq_false_iff, Bool.and_eq_false_iff,
        decide_eq_false_iff_not, beq_eq_false_iff_ne, ne_eq, not_lt]
      rcases h with h | ⟨he, hr⟩
      · exact ⟨by omega, Or.inl (by omega)⟩
      · exact ⟨by omega, Or.inr (ih ys hr)⟩

theorem charListLt_trans : ∀ a b c, charListLt a b = true → charListLt b c = true →
    charListLt a c = true := by
  intro a
  induction a with
  | nil =>
    intro b c hab hbc
    cases b with
    | nil => simp [charListLt] at hab
    | cons y ys =>
      cases c with
      | nil => simp [charListLt] at hbc
      | cons z zs => simp [charListLt]
  | cons x xs ih =>
    intro b c hab hbc
    cases b with
    | nil => simp [charListLt] at hab
    | cons y ys =>
      cases c with
      | nil => simp [charListLt] at hbc
      | cons z zs =>
        simp only [charListLt, Bool.or_eq_true, Bool.and_eq_true, decide_eq_true_eq,
          beq_iff_eq] at hab hbc ⊢
        rcases hab with hab | ⟨he1, hr1⟩
        · rcases hbc with hbc | ⟨he2, hr2⟩
          · exact Or.inl (by omega)
          · exact Or.inl (by omega)
        · rcases hbc with hbc | ⟨he2, hr2⟩
          · exact Or.inl (by omega)
          · exact Or.inr ⟨by omega, ih ys zs hr1 hr2⟩

theorem charListLt_conn : ∀ a b, charListLt a b = false → charListLt b a = false → a = b := by
  intro a
  induction a with
  | nil =>
    intro b hab _
    cases b with
    | nil => rfl
    | cons y ys => simp [charListLt] at hab
  | cons x xs ih =>
    intro b hab hba
    cases b with
    | nil => simp [charListLt] at hba
    | cons y ys =>
      simp only [charListLt, Bool.or_eq_false_iff, Bool.and_eq_false_iff,
        decide_eq_false_iff_not, beq_eq_false_iff_ne, ne_eq, not_lt] at hab hba
      obtain ⟨hxy, hab2⟩ := hab
      obtain ⟨hyx, hba2⟩ := hba
      have hx : x = y := charToNat_inj (by omega)
      subst hx
      rcases hab2 with h | hab2
      · omega
      · rcases hba2 with h | hba2
        · omega
        · rw [ih ys hab2 hba2]

theorem keyLe_total_thm (p q : String × String) : keyLe p q ∨ keyLe q p := by
  unfold keyLe keyLeB
  cases h : strLtB q.1 p.1 with
  | false => left; simp
  | true =>
    right
    unfold strLtB at h ⊢
    simp [charListLt_asymm _ _ h]

instance : IsTotal (String × String) keyLe := ⟨keyLe_total_thm⟩

theorem keyLe_trans_thm (a b c : String × String) (hab : keyLe a b) (hbc : keyLe b c) :
    keyLe a c := by
  unfold keyLe keyLeB strLtB at hab hbc ⊢
  simp only [Bool.not_eq_true'] at hab hbc ⊢
  by_cases hca : charListLt c.1.data a.1.data = true
  · by_cases hab' : charListLt a.1.data b.1.data = true
    · exact absurd (charListLt_trans _ _ _ hca hab') (by simp [hbc])
    · have : a.1.data = b.1.data := charListLt_conn _ _ (by simpa using hab') hab
      rw [← this] at hbc
      exact absurd hca (by simp [hbc])
  · simpa using hca

instance : IsTrans (String × String) keyLe := ⟨keyLe_trans_thm⟩

/-! ## Helper lemmas: hexadecimal digits and case mapping -/

theorem hexChar_mem (n : Nat) : hexChar n ∈ hexDigits := by
  rcases Nat.lt_or_ge n 16 with h | h
  · interval_cases n <;> decide
  · have hlen : hexDigits.length ≤ n := by simp [hexDigits]; omega
    rw [hexChar, List.getD_eq_default _ _ hlen]
    decide

theorem mem_le4Bytes {n b : Nat} (h : b ∈ le4Bytes n) : b < 256 := by
  simp only [le4Bytes, List.mem_map] at h
  obtain ⟨i, _, rfl⟩ := h
  exact Nat.mod_lt _ (by norm_num)

theorem md5Bytes_lt {msg : List Nat} {b : Nat} (h : b ∈ md5Bytes msg) : b < 256 := by
  unfold md5Bytes at h
  simp only [List.mem_append] at h
  rcases h with ((h | h) | h) | h <;> exact mem_le4Bytes h

theorem bytesToHex_chars {bs : List Nat} {c : Char} (hc : c ∈ (bytesToHex bs).data) :
    ∃ n, c = hexChar n := by
  simp only [bytesToHex, data_mk, List.mem_flatMap, List.mem_cons, List.mem_singleton,
    List.not_mem_nil, or_false] at hc
  obtain ⟨b, _, h | h⟩ := hc <;> exact ⟨_, h⟩

theorem asciiUpper_upper_eq {c : Char} (hc : c ∈ hexDigits) :
    asciiUpperChar (asciiUpperChar c) = asciiUpperChar c := by
  simp only [hexDigits, List.mem_append] at hc
  rcases hc with hc | hc <;> fin_cases hc <;> decide

theorem asciiUpper_lower_upper {c : Char} (hc : c ∈ hexDigits) :
    asciiUpperChar (asciiLowerChar (asciiUpperChar c)) = asciiUpperChar c := by
  simp only [hexDigits, List.mem_append] at hc
  rcases hc with hc | hc <;> fin_cases hc <;> decide

theorem pyUpper_md5_upper (s : String) : pyUpper (md5_upper s) = md5_upper s := by
  unfold md5_upper pyUpper
  apply String.ext
  simp only [data_mk, List.map_map]
  apply List.map_congr_left
  intro c hc
  obtain ⟨n, rfl⟩ := bytesToHex_chars hc
  exact asciiUpper_upper_eq (hexChar_mem n)

theorem pyUpper_pyLower_md5_upper (s : String) :
    pyUpper (pyLower (md5_upper s)) = md5_upper s := by
  unfold md5_upper pyUpper pyLower
  apply String.ext
  simp only [data_mk, List.map_map]
  apply List.map_congr_left
  intro c hc
  obtain ⟨n, rfl⟩ := bytesToHex_chars hc
  exact asciiUpper_lower_upper (hexChar_mem n)

/-! ## Helper lemmas: Python-dict association lists -/

theorem find?_map_overwrite {α : Type} (k j : String) (v : α) :
    ∀ d : List (String × α),
      dictGet (d.map fun p => if p.1 == k then (k, v) else p) j =
        if j = k then (if d.any (·.1 == k) then some v else none) else dictGet d j := by
  intro d
  induction d with
  | nil => simp [dictGet]
  | cons p ps ih =>
    simp only [List.map_cons, List.any_cons]
    by_cases hpk : p.1 = k
    · rw [if_pos (beq_iff_eq.mpr hpk)]
      by_cases hjk : j = k
      · subst hjk
        simp [dictGet, List.find?_cons, hpk]
      · have h1 : (((k, v) : String × α).1 == j) = false :=
          beq_eq_false_iff_ne.mpr fun h => hjk h.symm
        have h2 : (p.1 == j) = false :=
          beq_eq_false_iff_ne.mpr (hpk ▸ fun h => hjk h.symm)
        simp only [dictGet, List.find?_cons, h1, h2] at ih ⊢
        simpa [hjk] using ih
    · rw [if_neg (by simp [hpk])]
      by_cases hpj : p.1 = j
      · have hjk : ¬ j = k := fun h => hpk (hpj.trans h)
        simp [dictGet, List.find?_cons, hpj, hjk]
      · have h2 : (p.1 == j) = false := beq_eq_false_iff_ne.mpr hpj
        have h3 : (p.1 == k) = false := beq_eq_false_iff_ne.mpr hpk
        simp only [dictGet, List.find?_cons, h2, h3] at ih ⊢
        simpa using ih

theorem dictGet_dictInsert {α : Type} (d : List (String × α)) (k j : String) (v : α) :
    dictGet (dictInsert d k v) j = if j = k then some v else dictGet d j := by
  rw [dictInsert]
  by_cases hp : d.any (·.1 == k) = true
  · rw [if_pos hp, find?_map_overwrite k j v d]
    by_cases hjk : j = k
    · simp [hjk, hp]
    · simp [hjk]
  · have hpf : d.any (·.1 == k) = false := by
      cases h : d.any (·.1 == k) with
      | true => exact absurd h hp
      | false => rfl
    rw [if_neg hp]
    unfold dictGet
    rw [List.find?_append]
    by_cases hjk : j = k
    · subst hjk
      have hf : d.find? (·.1 == j) = none := by
        rw [List.find?_eq_none]
        exact List.any_eq_false.mp hpf
      simp [hf, List.find?_cons, dictGet]
    · have h1 : (((k, v) : String × α).1 == j) = false :=
        beq_eq_false_iff_ne.mpr fun h => hjk h.symm
      have hsing : (([(k, v)] : List (String × α)).find? (·.1 == j)) = none := by
        simp only [List.find?_cons, h1, List.find?_nil]
      rw [hsing]
      simp [dictGet, hjk]

theorem map_overwrite_self {α : Type} :
    ∀ (d : List (String × α)) (k : String) (v : α),
      (d.map Prod.fst).Nodup → dictGet d k = some v →
      (d.map fun p => if p.1 == k then (k, v) else p) = d := by
  intro d k v
  induction d with
  | nil => intro _ hget; simp [dictGet] at hget
  | cons p ps ih =>
    intro hnd hget
    by_cases hpk : p.1 = k
    · have hv : p.2 = v := by
        unfold dictGet at hget
        rw [List.find?_cons] at hget
        simpa [hpk] using hget
      have hkns : ∀ q ∈ ps, q.1 ≠ k := by
        intro q hq
        simp only [List.map_cons, List.nodup_cons] at hnd
        intro hqk
        exact hnd.1 (hpk ▸ hqk ▸ List.mem_map_of_mem Prod.fst hq)
      have hhd : ((k, v) : String × α) = p := by
        cases p; simp only at hpk hv; simp [hpk, hv]
      have htl : (ps.map fun q => if q.1 == k then (k, v) else q) = ps := by
        have : ∀ q ∈ ps, (if q.1 == k then (k, v) else q) = q := by
          intro q hq
          simp [hkns q hq]
        rw [List.map_congr_left this]
        exact List.map_id ps
      rw [List.map_cons, if_pos (beq_iff_eq.mpr hpk), htl, hhd]
    · have hget' : dictGet ps k = some v := by
        unfold dictGet at hget ⊢
        rw [List.find?_cons] at hget
        simpa [(by simp [hpk] : (p.1 == k) = false)] using hget
      have hnd' : (ps.map Prod.fst).Nodup := by
        simp only [List.map_cons, List.nodup_cons] at hnd
        exact hnd.2
      rw [List.map_cons, if_neg (show ¬ ((p.1 == k) = true) by simp [hpk]), ih hnd' hget']

theorem dictGet_any {α : Type} {d : List (String × α)} {k : String} {v : α}
    (hget : dictGet d k = some v) : d.any (·.1 == k) = true := by
  unfold dictGet at hget
  cases hf : d.find? (·.1 == k) with
  | none => rw [hf] at hget; simp at hget
  | some q =>
    have hq := List.find?_some hf
    exact List.any_eq_true.mpr ⟨q, List.mem_of_find?_eq_some hf, hq⟩

theorem dictInsert_get_self {α : Type} {d : List (String × α)} {k : String} {v : α}
    (hnd : (d.map Prod.fst).Nodup) (hget : dictGet d k = some v) : dictInsert d k v = d := by
  unfold dictInsert
  rw [dictGet_any hget, if_pos rfl]
  exact map_overwrite_self d k v hnd hget

theorem nodupKeys_dictInsert {α : Type} (d : List (String × α)) (k : String) (v : α)
    (hnd : (d.map Prod.fst).Nodup) : ((dictInsert d k v).map Prod.fst).Nodup := by
  rw [dictInsert]
  by_cases hp : d.any (·.1 == k) = true
  · rw [if_pos hp, List.map_map]
    have : ∀ p ∈ d, (Prod.fst ∘ fun p => if p.1 == k then (k, v) else p) p = Prod.fst p := by
      intro p _
      by_cases h : p.1 = k
      · simp [h]
      · simp [h]
    rw [List.map_congr_left this]
    exact hnd
  · have hpf : d.any (·.1 == k) = false := by
      cases h : d.any (·.1 == k) with
      | true => exact absurd h hp
      | false => rfl
    rw [if_neg hp, List.map_append, List.nodup_append]
    refine ⟨hnd, by simp, ?_⟩
    intro x hx hx'
    simp only [List.map_cons, List.map_nil, List.mem_singleton] at hx'
    subst hx'
    simp only [List.mem_map] at hx
    obtain ⟨p, hp', hpk⟩ := hx
    have := List.any_eq_false.mp hpf p hp'
    simp [hpk] at this

/-! ## Helper lemmas: the order store -/

theorem dictGet_update_order_status (s : Store) (k st : String) (rk : Option RkData)
    (j : String) :
    dictGet (update_order_status s k st rk) j =
      if j = k then
        some (match dictGet s k with
          | none => ⟨k, none, none, st, [], none⟩
          | some o =>
              { o with status := st,
                       robokassa := match rk with | none => o.robokassa | some d => some d })
      else dictGet s j := by
  unfold update_order_status
  cases hg : dictGet s k with
  | none => rw [dictGet_dictInsert]
  | some o =>
    cases rk with
    | none => rw [dictGet_dictInsert]
    | some d => rw [dictGet_dictInsert]

theorem status_update_order_status (s : Store) (k st : String) (rk : Option RkData)
    (j : String) :
    (dictGet (update_order_status s k st rk) j).map Order.status =
      if j = k then some st else (dictGet s j).map Order.status := by
  rw [dictGet_update_order_status]
  by_cases hjk : j = k
  · rw [if_pos hjk, if_pos hjk]
    cases dictGet s k with
    | none => rfl
    | some o => cases rk <;> rfl
  · rw [if_neg hjk, if_neg hjk]

/-! ## Helper lemmas: `Shp_` parameter keys -/

theorem ne_shp_MerchantLogin (k : String) : ("MerchantLogin" : String) ≠ "Shp_" ++ k := by
  simp [String.ext_iff, String.data_append]

theorem ne_shp_OutSum (k : String) : ("OutSum" : String) ≠ "Shp_" ++ k := by
  simp [String.ext_iff, String.data_append]

theorem ne_shp_InvId (k : String) : ("InvId" : String) ≠ "Shp_" ++ k := by
  simp [String.ext_iff, String.data_append]

theorem ne_shp_SignatureValue (k : String) : ("SignatureValue" : String) ≠ "Shp_" ++ k := by
  simp [String.ext_iff, String.data_append]

theorem ne_shp_Description (k : String) : ("Description" : String) ≠ "Shp_" ++ k := by
  simp [String.ext_iff, String.data_append]

theorem ne_shp_IsTest (k : String) : ("IsTest" : String) ≠ "Shp_" ++ k := by
  simp [String.ext_iff, String.data_append]

theorem shp_append_inj {k1 k2 : String} (h : ("Shp_" ++ k1 : String) = "Shp_" ++ k2) :
    k1 = k2 := by
  have hd := congrArg String.data h
  simp only [String.data_append] at hd
  exact String.ext (by simpa using hd)

theorem pyStartsWith_shp (k : String) : pyStartsWith ("Shp_" ++ k) "Shp_" = true := by
  simp [pyStartsWith, String.data_append, List.isPrefixOf]

theorem pyDrop_shp (k : String) : pyDrop ("Shp_" ++ k) 4 = k := by
  simp [pyDrop, String.data_append]

/-! ## Helper lemmas: the parameter dict built by `build_payment_url` -/

/-- The canonical string `build_payment_url` signs:
`MerchantLogin:OutSum:InvId:Password1[:Shp_...]`. -/
def buildBase (login p1 out inv : String) (shp : List (String × String)) : String :=
  let b := login ++ ":" ++ out ++ ":" ++ inv ++ ":" ++ p1
  if format_shp_part shp ≠ "" then b ++ ":" ++ format_shp_part shp else b

/-- The canonical string `verify_signature_from_result` recomputes:
`OutSum:InvId:Password2[:Shp_...]`. -/
def resultBase (out inv p2 : String) (shp : List (String × String)) : String :=
  let b := out ++ ":" ++ inv ++ ":" ++ p2
  if format_shp_part shp ≠ "" then b ++ ":" ++ format_shp_part shp else b

theorem foldl_dictInsert_fresh :
    ∀ (shp params : List (String × String)),
      (∀ p ∈ shp, params.any (fun q => q.1 == "Shp_" ++ p.1) = false) →
      (shp.map Prod.fst).Nodup →
      shp.foldl (fun ps p => dictInsert ps ("Shp_" ++ p.1) p.2) params =
        params ++ shp.map (fun p => ("Shp_" ++ p.1, p.2)) := by
  intro shp
  induction shp with
  | nil => intro params _ _; simp
  | cons p rest ih =>
    intro params hfresh hnd
    simp only [List.foldl_cons]
    have h1 : dictInsert params ("Shp_" ++ p.1) p.2 = params ++ [("Shp_" ++ p.1, p.2)] := by
      rw [dictInsert, if_neg]
      simp [hfresh p (List.mem_cons_self p rest)]
    rw [h1, ih]
    · simp
    · intro q hq
      rw [List.any_append]
      rw [hfresh q (List.mem_cons_of_mem p hq)]
      simp only [Bool.false_or, List.any_cons, List.any_nil, Bool.or_false]
      rw [beq_eq_false_iff_ne]
      intro he
      have hk : p.1 = q.1 := shp_append_inj he
      simp only [List.map_cons, List.nodup_cons] at hnd
      exact hnd.1 (hk ▸ List.mem_map_of_mem Prod.fst hq)
    · simp only [List.map_cons, List.nodup_cons] at hnd
      exact hnd.2

theorem pyStartsWith_MerchantLogin : pyStartsWith "MerchantLogin" "Shp_" = false := by decide

theorem pyStartsWith_OutSum : pyStartsWith "OutSum" "Shp_" = false := by decide

theorem pyStartsWith_InvId : pyStartsWith "InvId" "Shp_" = false := by decide

theorem pyStartsWith_SignatureValue : pyStartsWith "SignatureValue" "Shp_" = false := by decide

theorem pyStartsWith_Description : pyStartsWith "Description" "Shp_" = false := by decide

theorem pyStartsWith_IsTest : pyStartsWith "IsTest" "Shp_" = false := by decide

/-- `dictInsert` with a key absent from the dict appends. -/
theorem dictInsert_fresh {α : Type} {d : List (String × α)} {k : String} (v : α)
    (h : ∀ q ∈ d, q.1 ≠ k) : dictInsert d k v = d ++ [(k, v)] := by
  rw [dictInsert, if_neg]
  intro hc
  obtain ⟨q, hq, hqk⟩ := List.any_eq_true.mp hc
  exact h q hq (by simpa using hqk)

/-- The four signed query parameters of `build_payment_url`. -/
def base_params (login p1 out inv : String) (shp : List (String × String)) :
    List (String × String) :=
  [("MerchantLogin", login), ("OutSum", out), ("InvId", inv),
   ("SignatureValue", md5_upper (buildBase login p1 out inv shp))]

/-- The optional `Description` query parameter. -/
def desc_params (desc : Option String) : List (String × String) :=
  match desc with
  | some d => if d ≠ "" then [("Description", d)] else []
  | none => []

/-- The optional `IsTest` query parameter. -/
def test_params (test : Bool) : List (String × String) :=
  if test then [("IsTest", "1")] else []

theorem desc_params_key {desc : Option String} {q : String × String}
    (hq : q ∈ desc_params desc) : q.1 = "Description" := by
  rcases desc with _ | d
  · simp [desc_params] at hq
  · by_cases hd : d = ""
    · simp [desc_params, hd] at hq
    · simp only [desc_params, if_pos hd, List.mem_singleton] at hq
      rw [hq]

theorem test_params_key {test : Bool} {q : String × String}
    (hq : q ∈ test_params test) : q.1 = "IsTest" := by
  cases test
  · simp [test_params] at hq
  · simp [test_params] at hq
    rw [hq]

theorem base_params_keys {login p1 out inv : String} {shp : List (String × String)}
    {q : String × String} (hq : q ∈ base_params login p1 out inv shp) :
    q.1 = "MerchantLogin" ∨ q.1 = "OutSum" ∨ q.1 = "InvId" ∨ q.1 = "SignatureValue" := by
  simp only [base_params, List.mem_cons, List.not_mem_nil, or_false] at hq
  rcases hq with rfl | rfl | rfl | rfl <;> simp

theorem base_params_fresh (login p1 out inv : String) (shp : List (String × String))
    (k : String) :
    (base_params login p1 out inv shp).any (fun q => q.1 == "Shp_" ++ k) = false := by
  rw [List.any_eq_false]
  intro q hq
  rw [Bool.not_eq_true, beq_eq_false_iff_ne]
  rcases base_params_keys hq with h | h | h | h <;> rw [h]
  · exact ne_shp_MerchantLogin k
  · exact ne_shp_OutSum k
  · exact ne_shp_InvId k
  · exact ne_shp_SignatureValue k

theorem build_payment_params_eq (login p1 out inv : String) (desc : Option String)
    (shp : List (String × String)) (test : Bool) (hnd : (shp.map Prod.fst).Nodup) :
    build_payment_params login p1 out inv desc shp test [] =
      (base_params login p1 out inv shp ++ desc_params desc ++ test_params test) ++
        (shp.map fun p => ("Shp_" ++ p.1, p.2)) := by
  have hfold : ∀ params : List (String × String),
      (∀ p ∈ shp, params.any (fun q => q.1 == "Shp_" ++ p.1) = false) →
      shp.foldl (fun ps p => dictInsert ps ("Shp_" ++ p.1) p.2) params =
        params ++ shp.map (fun p => ("Shp_" ++ p.1, p.2)) :=
    fun params h => foldl_dictInsert_fresh shp params h hnd
  have hfreshD : ∀ (dd : String) (k : String),
      ((base_params login p1 out inv shp) ++ [("Description", dd)]).any
        (fun q => q.1 == "Shp_" ++ k) = false := by
    intro dd k
    rw [List.any_append, base_params_fresh login p1 out inv shp k]
    simp only [Bool.false_or, List.any_cons, List.any_nil, Bool.or_false]
    rw [beq_eq_false_iff_ne]
    exact ne_shp_Description k
  have hkeyT : ∀ {params : List (String × String)},
      (∀ q ∈ params, q.1 = "MerchantLogin" ∨ q.1 = "OutSum" ∨ q.1 = "InvId" ∨
        q.1 = "SignatureValue" ∨ q.1 = "Description") →
      dictInsert params "IsTest" "1" = params ++ [("IsTest", "1")] := by
    intro params hkeys
    refine dictInsert_fresh _ fun q hq => ?_
    rcases hkeys q hq with h | h | h | h | h <;> rw [h] <;> simp
  have hfreshT : ∀ (params : List (String × String)) (k : String),
      params.any (fun q => q.1 == "Shp_" ++ k) = false →
      (params ++ [("IsTest", "1")]).any (fun q => q.1 == "Shp_" ++ k) = false := by
    intro params k h
    rw [List.any_append, h]
    simp only [Bool.false_or, List.any_cons, List.any_nil, Bool.or_false]
    rw [beq_eq_false_iff_ne]
    exact ne_shp_IsTest k
  rcases desc with _ | d
  · cases test
    · rw [show build_payment_params login p1 out inv none shp false [] =
          shp.foldl (fun ps p => dictInsert ps ("Shp_" ++ p.1) p.2)
            (base_params login p1 out inv shp) from rfl]
      rw [hfold _ (fun p _ => base_params_fresh login p1 out inv shp p.1)]
      simp [desc_params, test_params]
    · rw [show build_payment_params login p1 out inv none shp true [] =
          shp.foldl (fun ps p => dictInsert ps ("Shp_" ++ p.1) p.2)
            (dictInsert (base_params login p1 out inv shp) "IsTest" "1") from rfl]
      rw [hkeyT (fun q hq => by
        rcases base_params_keys hq with h | h | h | h
        · exact Or.inl h
        · exact Or.inr (Or.inl h)
        · exact Or.inr (Or.inr (Or.inl h))
        · exact Or.inr (Or.inr (Or.inr (Or.inl h))))]
      rw [hfold _ (fun p _ =>
        hfreshT _ p.1 (base_params_fresh login p1 out inv shp p.1))]
      simp [desc_params, test_params]
  · by_cases hd : d = ""
    · cases test
      · rw [show build_payment_params login p1 out inv (some d) shp false [] =
            shp.foldl (fun ps p => dictInsert ps ("Shp_" ++ p.1) p.2)
              (if d ≠ "" then
                dictInsert (base_params login p1 out inv shp) "Description" d
              else base_params login p1 out inv shp) from rfl]
        rw [if_neg (not_not_intro hd)]
        rw [hfold _ (fun p _ => base_params_fresh login p1 out inv shp p.1)]
        simp [desc_params, test_params, hd]
      · rw [show build_payment_params login p1 out inv (some d) shp true [] =
            shp.foldl (fun ps p => dictInsert ps ("Shp_" ++ p.1) p.2)
              (dictInsert (if d ≠ "" then
                  dictInsert (base_params login p1 out inv shp) "Description" d
                else base_params login p1 out inv shp) "IsTest" "1") from rfl]
        rw [if_neg (not_not_intro hd)]
        rw [hkeyT (fun q hq => by
          rcases base_params_keys hq with h | h | h | h
          · exact Or.inl h
          · exact Or.inr (Or.inl h)
          · exact Or.inr (Or.inr (Or.inl h))
          · exact Or.inr (Or.inr (Or.inr (Or.inl h))))]
        rw [hfold _ (fun p _ =>
          hfreshT _ p.1 (base_params_fresh login p1 out inv shp p.1))]
        simp [desc_params, test_params, hd]
    · have hDins : dictInsert (base_params login p1 out inv shp) "Description" d =
          base_params login p1 out inv shp ++ [("Description", d)] := by
        refine dictInsert_fresh _ fun q hq => ?_
        rcases base_params_keys hq with h | h | h | h <;> rw [h] <;> simp
      cases test
      · rw [show build_payment_params login p1 out inv (some d) shp false [] =
            shp.foldl (fun ps p => dictInsert ps ("Shp_" ++ p.1) p.2)
              (if d ≠ "" then
                dictInsert (base_params login p1 out inv shp) "Description" d
              else base_params login p1 out inv shp) from rfl]
        rw [if_pos hd, hDins]
        rw [hfold _ (fun p _ => hfreshD d p.1)]
        simp [desc_params, test_params, hd]
      · rw [show build_payment_params login p1 out inv (some d) shp true [] =
            shp.foldl (fun ps p => dictInsert ps ("Shp_" ++ p.1) p.2)
              (dictInsert (if d ≠ "" then
                  dictInsert (base_params login p1 out inv shp) "Description" d
                else base_params login p1 out inv shp) "IsTest" "1") from rfl]
        rw [if_pos hd, hDins]
        rw [hkeyT (fun q hq => by
          rcases List.mem_append.mp hq with hq | hq
          · rcases base_params_keys hq with h | h | h | h
            · exact Or.inl h
            · exact Or.inr (Or.inl h)
            · exact Or.inr (Or.inr (Or.inl h))
            · exact Or.inr (Or.inr (Or.inr (Or.inl h)))
          · simp only [List.mem_singleton] at hq
            subst hq
            exact Or.inr (Or.inr (Or.inr (Or.inr rfl))))]
        rw [hfold _ (fun p _ => hfreshT _ p.1 (hfreshD d p.1))]
        simp [desc_params, test_params, hd]

theorem dictGet_base4_OutSum (login out inv sig : String) (X : List (String × String)) :
    dictGet ([("MerchantLogin", login), ("OutSum", out), ("InvId", inv),
      ("SignatureValue", sig)] ++ X) "OutSum" = some out := by
  unfold dictGet
  rw [List.find?_append]
  simp [List.find?_cons]

theorem dictGet_base4_InvId (login out inv sig : String) (X : List (String × String)) :
    dictGet ([("MerchantLogin", login), ("OutSum", out), ("InvId", inv),
      ("SignatureValue", sig)] ++ X) "InvId" = some inv := by
  unfold dictGet
  rw [List.find?_append]
  simp [List.find?_cons]

theorem dictGet_base4_SignatureValue (login out inv sig : String)
    (X : List (String × String)) :
    dictGet ([("MerchantLogin", login), ("OutSum", out), ("InvId", inv),
      ("SignatureValue", sig)] ++ X) "SignatureValue" = some sig := by
  unfold dictGet
  rw [List.find?_append]
  simp [List.find?_cons]

theorem extract_shp_build (login p1 out inv : String) (desc : Option String) (test : Bool)
    (shp : List (String × String)) :
    extract_shp ((base_params login p1 out inv shp ++ desc_params desc ++
        test_params test) ++ (shp.map fun p => ("Shp_" ++ p.1, p.2))) = shp := by
  unfold extract_shp
  rw [List.filter_append, List.filter_append, List.filter_append]
  have hbase : (base_params login p1 out inv shp).filter
      (fun p => pyStartsWith p.1 "Shp_") = [] := by
    rw [List.filter_eq_nil_iff]
    intro q hq
    simp only [base_params, List.mem_cons, List.not_mem_nil, or_false] at hq
    rcases hq with rfl | rfl | rfl | rfl <;>
      simp [pyStartsWith_MerchantLogin, pyStartsWith_OutSum, pyStartsWith_InvId,
        pyStartsWith_SignatureValue]
  have hdesc : (desc_params desc).filter (fun p => pyStartsWith p.1 "Shp_") = [] := by
    rw [List.filter_eq_nil_iff]
    intro q hq
    rw [desc_params_key hq]
    simp [pyStartsWith_Description]
  have htest : (test_params test).filter (fun p => pyStartsWith p.1 "Shp_") = [] := by
    rw [List.filter_eq_nil_iff]
    intro q hq
    rw [test_params_key hq]
    simp [pyStartsWith_IsTest]
  have hshp : (shp.map fun p => ("Shp_" ++ p.1, p.2)).filter
      (fun p => pyStartsWith p.1 "Shp_") = shp.map fun p => ("Shp_" ++ p.1, p.2) := by
    rw [List.filter_eq_self]
    intro q hq
    simp only [List.mem_map] at hq
    obtain ⟨p, _, rfl⟩ := hq
    exact pyStartsWith_shp p.1
  rw [hbase, hdesc, htest, hshp]
  simp only [List.nil_append, List.map_map]
  have : ∀ p ∈ shp,
      ((fun q => (pyDrop q.1 4, q.2)) ∘ fun p => ("Shp_" ++ p.1, p.2)) p = p := by
    intro p _
    simp [pyDrop_shp p.1]
  rw [List.map_congr_left this]
  exact List.map_id shp

/-! ## Helper lemmas: uniqueness of the sorted extension string -/

theorem strLtB_of_not_gt {a b : String} (h1 : strLtB b a = false) (h2 : a ≠ b) :
    strLtB a b = true := by
  cases h : strLtB a b with
  | true => rfl
  | false =>
    exact absurd (String.ext (charListLt_conn a.data b.data h h1)) h2

theorem sorted_strict {l : List (String × String)} (hs : List.Sorted keyLe l)
    (hnd : (l.map Prod.fst).Nodup) :
    List.Pairwise (fun p q : String × String => strLtB p.1 q.1 = true) l := by
  have hne : List.Pairwise (fun p q : String × String => p.1 ≠ q.1) l :=
    List.pairwise_map.mp hnd
  refine (hs.and hne).imp ?_
  rintro p q ⟨hle, hne'⟩
  have h1 : strLtB q.1 p.1 = false := by
    unfold keyLe keyLeB at hle
    simpa using hle
  exact strLtB_of_not_gt h1 hne'

theorem insertionSort_eq_of_perm (l1 l2 : List (String × String))
    (h1 : (l1.map Prod.fst).Nodup) (h2 : (l2.map Prod.fst).Nodup) (hp : l1.Perm l2) :
    l1.insertionSort keyLe = l2.insertionSort keyLe := by
  have p1 := List.perm_insertionSort keyLe l1
  have p2 := List.perm_insertionSort keyLe l2
  have hp' : (l1.insertionSort keyLe).Perm (l2.insertionSort keyLe) :=
    p1.trans (hp.trans p2.symm)
  have hanti : IsAntisymm (String × String)
      (fun p q : String × String => strLtB p.1 q.1 = true) :=
    ⟨fun a b hab hba => absurd hba (by simp [charListLt_asymm _ _ hab, strLtB])⟩
  exact @List.eq_of_perm_of_sorted (String × String)
    (fun p q : String × String => strLtB p.1 q.1 = true) hanti _ _ hp'
    (sorted_strict (List.sorted_insertionSort keyLe l1) (((p1.map Prod.fst).nodup_iff).mpr h1))
    (sorted_strict (List.sorted_insertionSort keyLe l2) (((p2.map Prod.fst).nodup_iff).mpr h2))

theorem format_shp_part_perm {l1 l2 : List (String × String)}
    (h1 : (l1.map Prod.fst).Nodup) (h2 : (l2.map Prod.fst).Nodup) (hp : l1.Perm l2) :
    format_shp_part l1 = format_shp_part l2 := by
  unfold format_shp_part
  by_cases he : l1 = []
  · subst he
    have : l2 = [] := hp.nil_eq.symm
    subst this
    rfl
  · have he2 : l2 ≠ [] := by
      intro hc
      subst hc
      exact he (List.length_eq_zero.mp (hp.length_eq.trans rfl))
    rw [if_neg he, if_neg he2, insertionSort_eq_of_perm l1 l2 h1 h2 hp]

/-! ## Helper lemmas: the canonical strings -/

theorem intercalate_go_length : ∀ (as : List String) (acc sep : String),
    acc.length ≤ (String.intercalate.go acc sep as).length := by
  intro as
  induction as with
  | nil => intro acc sep; exact Nat.le_refl _
  | cons a as ih =>
    intro acc sep
    calc acc.length ≤ (acc ++ sep ++ a).length := by
          rw [String.length_append, String.length_append]; omega
      _ ≤ _ := ih (acc ++ sep ++ a) sep

theorem format_shp_part_ne_nil {shp : List (String × String)} (h : shp ≠ []) :
    format_shp_part shp ≠ "" := by
  unfold format_shp_part
  rw [if_neg h]
  cases hs : shp.insertionSort keyLe with
  | nil =>
    exfalso
    have hperm := List.perm_insertionSort keyLe shp
    rw [hs] at hperm
    exact h hperm.nil_eq.symm
  | cons x xs =>
    rw [List.map_cons]
    intro hc
    have hlen := intercalate_go_length (xs.map fun p => "Shp_" ++ p.1 ++ "=" ++ p.2)
      ("Shp_" ++ x.1 ++ "=" ++ x.2) ":"
    rw [show String.intercalate ":"
        (("Shp_" ++ x.1 ++ "=" ++ x.2) :: xs.map fun p => "Shp_" ++ p.1 ++ "=" ++ p.2) =
        String.intercalate.go ("Shp_" ++ x.1 ++ "=" ++ x.2) ":"
          (xs.map fun p => "Shp_" ++ p.1 ++ "=" ++ p.2) from rfl] at hc
    rw [hc] at hlen
    simp only [String.length_append] at hlen
    have : ("Shp_" : String).length = 4 := rfl
    have : ("" : String).length = 0 := rfl
    omega

theorem buildBase_spec (login p1 out inv : String) (shp : List (String × String)) :
    buildBase login p1 out inv shp =
      login ++ ":" ++ out ++ ":" ++ inv ++ ":" ++ p1 ++
        (if shp = [] then "" else ":" ++ format_shp_part shp) := by
  unfold buildBase
  by_cases h : shp = []
  · subst h
    rw [if_pos rfl, if_neg (by simp [format_shp_part])]
    simp
  · rw [if_neg h, if_pos (format_shp_part_ne_nil h), String.append_assoc]

theorem verify_iff (out inv sig p2 : String) (shp : List (String × String)) :
    verify_signature_from_result out inv sig p2 shp = true ↔
      pyUpper sig = md5_upper (resultBase out inv p2 shp) := by
  simp only [verify_signature_from_result, resultBase, beq_iff_eq]
  exact eq_comm

/-! ## Helper lemmas: handler frame conditions -/

theorem payment_success_snd (cfg : Config) (args : List (String × String)) (s : Store) :
    (payment_success cfg args s).2 = s := by
  simp only [payment_success]
  split <;> split <;> rfl

theorem dictGet_build_SignatureValue (login p1 out inv : String) (desc : Option String)
    (shp : List (String × String)) (test : Bool) (hnd : (shp.map Prod.fst).Nodup) :
    dictGet (build_payment_params login p1 out inv desc shp test []) "SignatureValue" =
      some (md5_upper (buildBase login p1 out inv shp)) := by
  rw [build_payment_params_eq login p1 out inv desc shp test hnd]
  have hshape : (base_params login p1 out inv shp ++ desc_params desc ++
        test_params test) ++ (shp.map fun p => ("Shp_" ++ p.1, p.2)) =
      [("MerchantLogin", login), ("OutSum", out), ("InvId", inv),
        ("SignatureValue", md5_upper (buildBase login p1 out inv shp))] ++
        (desc_params desc ++ (test_params test ++ (shp.map fun p => ("Shp_" ++ p.1, p.2)))) := by
    simp [base_params, List.append_assoc]
  rw [hshape, dictGet_base4_SignatureValue]

theorem dictGet_build_OutSum (login p1 out inv : String) (desc : Option String)
    (shp : List (String × String)) (test : Bool) (hnd : (shp.map Prod.fst).Nodup) :
    dictGet (build_payment_params login p1 out inv desc shp test []) "OutSum" = some out := by
  rw [build_payment_params_eq login p1 out inv desc shp test hnd]
  have hshape : (base_params login p1 out inv shp ++ desc_params desc ++
        test_params test) ++ (shp.map fun p => ("Shp_" ++ p.1, p.2)) =
      [("MerchantLogin", login), ("OutSum", out), ("InvId", inv),
        ("SignatureValue", md5_upper (buildBase login p1 out inv shp))] ++
        (desc_params desc ++ (test_params test ++ (shp.map fun p => ("Shp_" ++ p.1, p.2)))) := by
    simp [base_params, List.append_assoc]
  rw [hshape, dictGet_base4_OutSum]

theorem dictGet_build_InvId (login p1 out inv : String) (desc : Option String)
    (shp : List (String × String)) (test : Bool) (hnd : (shp.map Prod.fst).Nodup) :
    dictGet (build_payment_params login p1 out inv desc shp test []) "InvId" = some inv := by
  rw [build_payment_params_eq login p1 out inv desc shp test hnd]
  have hshape : (base_params login p1 out inv shp ++ desc_params desc ++
        test_params test) ++ (shp.map fun p => ("Shp_" ++ p.1, p.2)) =
      [("MerchantLogin", login), ("OutSum", out), ("InvId", inv),
        ("SignatureValue", md5_upper (buildBase login p1 out inv shp))] ++
        (desc_params desc ++ (test_params test ++ (shp.map fun p => ("Shp_" ++ p.1, p.2)))) := by
    simp [base_params, List.append_assoc]
  rw [hshape, dictGet_base4_InvId]

theorem extract_shp_build_params (login p1 out inv : String) (desc : Option String)
    (shp : List (String × String)) (test : Bool) (hnd : (shp.map Prod.fst).Nodup) :
    extract_shp (build_payment_params login p1 out inv desc shp test []) = shp := by
  rw [build_payment_params_eq login p1 out inv desc shp test hnd]
  exact extract_shp_build login p1 out inv desc test shp

/-! ## The claims -/

/-- C2: the redirect-return handler (`payment_success`) never mutates any
order's status: whatever the configuration, the incoming query parameters
(verifying or not, known order id or not) and the store, the store after
handling equals the store before. -/
theorem C2_redirect_return_never_mutates (cfg : Config) (args : List (String × String))
    (s : Store) : (payment_success cfg args s).2 = s :=
  payment_success_snd cfg args s

/-- C3: `build_payment_url` signs the colon-joined string
`MerchantLogin:OutSum:InvId:Password1`, with the extension part appended
(as `:Shp_key=value` pairs in ascending key order) exactly when the
extension map is non-empty, and exposes the upper-case MD5 of that string
as the `SignatureValue` query parameter; in particular the two spec
examples hold. -/
theorem C3_build_signature_formula :
    (∀ (login p1 out inv : String) (desc : Option String) (shp : List (String × String))
        (test : Bool), (shp.map Prod.fst).Nodup →
      dictGet (build_payment_params login p1 out inv desc shp test []) "SignatureValue" =
        some (md5_upper (login ++ ":" ++ out ++ ":" ++ inv ++ ":" ++ p1 ++
          (if shp = [] then "" else ":" ++ format_shp_part shp)))) ∧
    dictGet (build_payment_params "robo-demo" "password1" "99.90" "1001" none [] false [])
        "SignatureValue" = some (md5_upper "robo-demo:99.90:1001:password1") ∧
    dictGet (build_payment_params "robo-demo" "password1" "99.90" "1001" none
        [("user", "42")] false []) "SignatureValue" =
      some (md5_upper "robo-demo:99.90:1001:password1:Shp_user=42") := by
  refine ⟨?_, by decide, by decide⟩
  intro login p1 out inv desc shp test hnd
  rw [dictGet_build_SignatureValue login p1 out inv desc shp test hnd, buildBase_spec]

/-- C4: `verify_signature_from_result` recomputes the digest over
`OutSum:InvId:Password2` (no merchant identifier) with extension pairs in
ascending key order, and compares case-insensitively: it accepts exactly
the candidates whose upper-casing equals the recomputed upper-case MD5
digest, so in particular the fully lower-cased correct digest is
accepted. -/
theorem C4_verify_formula_and_case_insensitivity :
    (∀ (out inv sig p2 : String) (shp : List (String × String)),
      verify_signature_from_result out inv sig p2 shp = true ↔
        pyUpper sig = md5_upper (resultBase out inv p2 shp)) ∧
    (∀ (out inv p2 : String) (shp : List (String × String)),
      verify_signature_from_result out inv (pyLower (md5_upper (resultBase out inv p2 shp)))
        p2 shp = true) :=
  ⟨fun out inv sig p2 shp => verify_iff out inv sig p2 shp,
   fun out inv p2 shp =>
     (verify_iff out inv _ p2 shp).mpr (pyUpper_pyLower_md5_upper _)⟩

/-- C5: the canonical extension string (and hence every digest computed over
it by the URL builder or the callback verifier) depends only on the
key/value set of the extension map, not on its insertion order. -/
theorem C5_extension_order_independence (l1 l2 : List (String × String))
    (h1 : (l1.map Prod.fst).Nodup) (h2 : (l2.map Prod.fst).Nodup)
    (hmem : ∀ p : String × String, p ∈ l1 ↔ p ∈ l2) :
    format_shp_part l1 = format_shp_part l2 ∧
    (∀ out inv sig p2 : String,
      verify_signature_from_result out inv sig p2 l1 =
        verify_signature_from_result out inv sig p2 l2) ∧
    (∀ (login p1 out inv : String) (desc : Option String) (test : Bool),
      dictGet (build_payment_params login p1 out inv desc l1 test []) "SignatureValue" =
        dictGet (build_payment_params login p1 out inv desc l2 test []) "SignatureValue") := by
  have hn1 : l1.Nodup := List.Nodup.of_map Prod.fst h1
  have hn2 : l2.Nodup := List.Nodup.of_map Prod.fst h2
  have hp : l1.Perm l2 := (List.perm_ext_iff_of_nodup hn1 hn2).mpr hmem
  have hf : format_shp_part l1 = format_shp_part l2 := format_shp_part_perm h1 h2 hp
  refine ⟨hf, ?_, ?_⟩
  · intro out inv sig p2
    simp only [verify_signature_from_result, hf]
  · intro login p1 out inv desc test
    have hb : buildBase login p1 out inv l1 = buildBase login p1 out inv l2 := by
      unfold buildBase
      rw [hf]
    rw [dictGet_build_SignatureValue login p1 out inv desc l1 test h1,
      dictGet_build_SignatureValue login p1 out inv desc l2 test h2, hb]

/-- Witness for C5 at a concrete pair of maps inserted in opposite orders. -/
theorem C5_witness :
    format_shp_part [("user", "42"), ("acct", "7")] =
      format_shp_part [("acct", "7"), ("user", "42")] ∧
    verify_signature_from_result "99.90" "1001" "x" "password2"
        [("user", "42"), ("acct", "7")] =
      verify_signature_from_result "99.90" "1001" "x" "password2"
        [("acct", "7"), ("user", "42")] := by
  have h := C5_extension_order_independence [("user", "42"), ("acct", "7")]
    [("acct", "7"), ("user", "42")] (by decide) (by decide)
    (by intro p; constructor <;> (intro hp; simp only [List.mem_cons] at hp ⊢; tauto))
  exact ⟨h.1, h.2.1 "99.90" "1001" "x" "password2"⟩

/-- C9 counterexample: with `out_sum="99.90"`, `inv_id="1001"`,
`password2="password2"` and no extensions, the correct digest starts with
the letter `D`; changing that single character to the different character
`d` still verifies, because the comparison upper-cases the candidate. -/
theorem C9_counterexample :
    md5_upper "99.90:1001:password2" = "D9B3B7C056EB12CA8EED99D439FE3BF8" ∧
    ("d9B3B7C056EB12CA8EED99D439FE3BF8" : String) ≠ "D9B3B7C056EB12CA8EED99D439FE3BF8" ∧
    verify_signature_from_result "99.90" "1001" "d9B3B7C056EB12CA8EED99D439FE3BF8"
      "password2" [] = true := by decide

/-- C9 (amended): verifying a digest produced by the signing formula with
the same secret and extension map returns true, and a candidate is rejected
exactly when its upper-casing differs from the correct digest — so any
single-character change that alters the upper-casing makes verification
fail, while a case-only change of a hex letter is still accepted. -/
theorem C9_roundtrip_and_rejection (out inv p2 : String) (shp : List (String × String)) :
    verify_signature_from_result out inv (md5_upper (resultBase out inv p2 shp)) p2 shp =
      true ∧
    (∀ cand : String, pyUpper cand ≠ md5_upper (resultBase out inv p2 shp) →
      verify_signature_from_result out inv cand p2 shp = false) := by
  constructor
  · exact (verify_iff out inv _ p2 shp).mpr (pyUpper_md5_upper _)
  · intro cand hne
    cases hv : verify_signature_from_result out inv cand p2 shp with
    | false => rfl
    | true => exact absurd ((verify_iff out inv cand p2 shp).mp hv) hne

/-- Witness for C9 (amended) at concrete inputs. -/
theorem C9_roundtrip_and_rejection_witness :
    verify_signature_from_result "99.90" "1001"
        (md5_upper (resultBase "99.90" "1001" "password2" [])) "password2" [] = true ∧
    verify_signature_from_result "99.90" "1001" "00000000000000000000000000000000"
        "password2" [] = false := by
  refine ⟨(C9_roundtrip_and_rejection "99.90" "1001" "password2" []).1, ?_⟩
  exact (C9_roundtrip_and_rejection "99.90" "1001" "password2" []).2
    "00000000000000000000000000000000" (by decide)

/-- C1: only the callback path can set an order's status to `paid`: when the
signature check of `payment_result` fails the store is untouched, and none
of `create_order`, `create_payment` or `payment_success` ever assigns the
status `paid` (an order is `paid` after them only if it already was).  The
remaining routes of `app.py` (`index`, `payment_fail`, the error handlers)
only render templates and never write `ORDERS`. -/
theorem C1_paid_only_from_verified_callback :
    (∀ (cfg : Config) (form : List (String × String)) (s : Store) (invId : String),
      dictGet form "InvId" = some invId →
      verify_signature_from_result ((dictGet form "OutSum").getD "") invId
        ((dictGet form "SignatureValue").getD "") cfg.password2 (extract_shp form) = false →
      (payment_result cfg form s).2 = s) ∧
    (∀ (form : List (String × String)) (s : Store) (j : String) (o' : Order),
      dictGet (create_order form s).2 j = some o' → o'.status = "paid" →
      ∃ o, dictGet s j = some o ∧ o.status = "paid") ∧
    (∀ (cfg : Config) (form : List (String × String)) (s : Store) (j : String) (o' : Order),
      dictGet (create_payment cfg form s).2 j = some o' → o'.status = "paid" →
      ∃ o, dictGet s j = some o ∧ o.status = "paid") ∧
    (∀ (cfg : Config) (args : List (String × String)) (s : Store),
      (payment_success cfg args s).2 = s) := by
  refine ⟨?_, ?_, ?_, fun cfg args s => payment_success_snd cfg args s⟩
  · intro cfg form s invId hinv hv
    simp only [payment_result, hinv]
    by_cases hne : invId = ""
    · rw [if_pos hne]
    · rw [if_neg hne, if_pos (by simp [hv])]
  · intro form s j o' hget hst
    simp only [create_order] at hget
    cases hp : parseDecimal (pyStrip ((dictGet form "amount").getD "0")) with
    | none =>
      rw [hp] at hget
      exact ⟨o', hget, hst⟩
    | some a =>
      rw [hp] at hget
      dsimp only at hget
      rw [dictGet_dictInsert] at hget
      split at hget
      · rw [← Option.some.inj hget] at hst
        simp at hst
      · exact ⟨o', hget, hst⟩
  · intro cfg form s j o' hget hst
    simp only [create_payment] at hget
    cases ho : dictGet form "order_id" with
    | none =>
      rw [ho] at hget
      exact ⟨o', hget, hst⟩
    | some oid =>
      rw [ho] at hget
      dsimp only at hget
      by_cases hoe : oid = ""
      · rw [if_pos hoe] at hget
        exact ⟨o', hget, hst⟩
      · rw [if_neg hoe] at hget
        cases hso : dictGet s oid with
        | none =>
          rw [hso] at hget
          exact ⟨o', hget, hst⟩
        | some order =>
          rw [hso] at hget
          dsimp only at hget
          cases ham : order.amount with
          | none =>
            rw [ham] at hget
            exact ⟨o', hget, hst⟩
          | some a =>
            rw [ham] at hget
            dsimp only at hget
            by_cases hle : a.m ≤ 0
            · rw [if_pos hle] at hget
              exact ⟨o', hget, hst⟩
            · rw [if_neg hle] at hget
              split at hget
              · exact ⟨o', hget, hst⟩
              · dsimp only at hget
                rw [dictGet_update_order_status] at hget
                split at hget
                · rw [hso] at hget
                  rw [← Option.some.inj hget] at hst
                  simp at hst
                · exact ⟨o', hget, hst⟩

/-- Witness for C1 at concrete inputs: an unsigned callback leaves the store
unchanged, and each non-callback handler leaves a paid order paid. -/
theorem C1_paid_only_from_verified_callback_witness :
    (payment_result defaultConfig [("InvId", "1001")]
      [("1001", ⟨"1001", none, none, "paid", [], none⟩)]).2 =
      [("1001", ⟨"1001", none, none, "paid", [], none⟩)] ∧
    (∃ o, dictGet [("1001", (⟨"1001", none, none, "paid", [], none⟩ : Order))] "1001" =
      some o ∧ o.status = "paid") ∧
    (payment_success defaultConfig []
      [("1001", ⟨"1001", none, none, "paid", [], none⟩)]).2 =
      [("1001", ⟨"1001", none, none, "paid", [], none⟩)] := by
  refine ⟨?_, ?_, ?_⟩
  · exact C1_paid_only_from_verified_callback.1 defaultConfig [("InvId", "1001")]
      [("1001", ⟨"1001", none, none, "paid", [], none⟩)] "1001" (by decide) (by decide)
  · exact C1_paid_only_from_verified_callback.2.1 [("amount", "abc")]
      [("1001", ⟨"1001", none, none, "paid", [], none⟩)] "1001"
      ⟨"1001", none, none, "paid", [], none⟩ (by decide) rfl
  · exact C1_paid_only_from_verified_callback.2.2.2 defaultConfig []
      [("1001", ⟨"1001", none, none, "paid", [], none⟩)]

/-- C6: round trip — the query parameters produced by `build_payment_url`
(`OutSum`, `InvId`, `SignatureValue` and the `Shp_*` pairs), fed back into
the redirect-return handler with the same merchant login and password1,
pass its signature verification and render the success page. -/
theorem C6_roundtrip_redirect_verification (cfg : Config) (desc : Option String)
    (shp : List (String × String)) (test : Bool) (out inv : String) (s : Store)
    (hnd : (shp.map Prod.fst).Nodup) :
    (payment_success cfg
      (build_payment_params cfg.merchantLogin cfg.password1 out inv desc shp test []) s).1 =
      Resp.successPage inv := by
  simp only [payment_success]
  rw [dictGet_build_OutSum cfg.merchantLogin cfg.password1 out inv desc shp test hnd,
    dictGet_build_InvId cfg.merchantLogin cfg.password1 out inv desc shp test hnd,
    dictGet_build_SignatureValue cfg.merchantLogin cfg.password1 out inv desc shp test hnd,
    extract_shp_build_params cfg.merchantLogin cfg.password1 out inv desc shp test hnd]
  simp only [Option.getD_some]
  rw [pyUpper_md5_upper]
  rw [if_neg]
  simp only [ne_eq, not_not, buildBase]

/-- Witness for C6 at concrete inputs. -/
theorem C6_roundtrip_redirect_verification_witness :
    (payment_success defaultConfig
      (build_payment_params defaultConfig.merchantLogin defaultConfig.password1
        "99.90" "1001" (some "Order") [("user", "42")] true []) []).1 =
      Resp.successPage "1001" :=
  C6_roundtrip_redirect_verification defaultConfig (some "Order") [("user", "42")] true
    "99.90" "1001" [] (by decide)

/-- C7 counterexample: `create_payment` re-issues a payment URL for an
already-`paid` order and unconditionally resets its status to `pending`,
so order status does regress from `paid`. -/
theorem C7_counterexample :
    (dictGet [("1001", (⟨"1001", some ⟨12345, 2⟩, some "Test order", "paid",
        [("user", "42")], none⟩ : Order))] "1001").map Order.status = some "paid" ∧
    (dictGet (create_payment defaultConfig [("order_id", "1001")]
        [("1001", ⟨"1001", some ⟨12345, 2⟩, some "Test order", "paid",
          [("user", "42")], none⟩)]).2 "1001").map Order.status = some "pending" := by
  decide

/-- C7 (amended): the two gateway-facing handlers never regress a paid
order — `payment_success` never writes the store and `payment_result` only
ever assigns `paid` — but `create_order` and `create_payment` perform no
prior-status check (the counterexample shows `create_payment` moving a paid
order back to `pending`; `create_order` likewise overwrites an existing id
back to `created`). -/
theorem C7_result_handlers_never_regress :
    (∀ (cfg : Config) (args : List (String × String)) (s : Store) (j : String) (o : Order),
      dictGet s j = some o → o.status = "paid" →
      ∃ o', dictGet (payment_success cfg args s).2 j = some o' ∧ o'.status = "paid") ∧
    (∀ (cfg : Config) (form : List (String × String)) (s : Store) (j : String) (o : Order),
      dictGet s j = some o → o.status = "paid" →
      ∃ o', dictGet (payment_result cfg form s).2 j = some o' ∧ o'.status = "paid") := by
  constructor
  · intro cfg args s j o hget hst
    rw [payment_success_snd]
    exact ⟨o, hget, hst⟩
  · intro cfg form s j o hget hst
    simp only [payment_result]
    cases hinv : dictGet form "InvId" with
    | none => exact ⟨o, hget, hst⟩
    | some invId =>
      dsimp only
      by_cases hne : invId = ""
      · rw [if_pos hne]
        exact ⟨o, hget, hst⟩
      · rw [if_neg hne]
        by_cases hv : verify_signature_from_result ((dictGet form "OutSum").getD "") invId
            ((dictGet form "SignatureValue").getD "") cfg.password2 (extract_shp form) = true
        · rw [if_neg (by simp [hv])]
          dsimp only
          rw [dictGet_update_order_status]
          by_cases hj : j = invId
          · rw [if_pos hj, ← hj, hget]
            exact ⟨_, rfl, rfl⟩
          · rw [if_neg hj]
            exact ⟨o, hget, hst⟩
        · rw [if_pos hv]
          exact ⟨o, hget, hst⟩

/-- Witness for C7 (amended) at concrete inputs. -/
theorem C7_result_handlers_never_regress_witness :
    (∃ o', dictGet (payment_success defaultConfig []
        [("1001", (⟨"1001", none, none, "paid", [], none⟩ : Order))]).2 "1001" =
      some o' ∧ o'.status = "paid") ∧
    (∃ o', dictGet (payment_result defaultConfig
        [("OutSum", "99.90"), ("InvId", "1001"),
         ("SignatureValue", "D9B3B7C056EB12CA8EED99D439FE3BF8")]
        [("1001", (⟨"1001", none, none, "paid", [], none⟩ : Order))]).2 "1001" =
      some o' ∧ o'.status = "paid") := by
  constructor
  · exact C7_result_handlers_never_regress.1 defaultConfig []
      [("1001", ⟨"1001", none, none, "paid", [], none⟩)] "1001"
      ⟨"1001", none, none, "paid", [], none⟩ (by decide) rfl
  · exact C7_result_handlers_never_regress.2 defaultConfig
      [("OutSum", "99.90"), ("InvId", "1001"),
       ("SignatureValue", "D9B3B7C056EB12CA8EED99D439FE3BF8")]
      [("1001", ⟨"1001", none, none, "paid", [], none⟩)] "1001"
      ⟨"1001", none, none, "paid", [], none⟩ (by decide) rfl

/-- The concrete correctly-signed callback form used for C8. -/
def c8Form : List (String × String) :=
  [("OutSum", "99.90"), ("InvId", "1001"),
   ("SignatureValue", "D9B3B7C056EB12CA8EED99D439FE3BF8")]

/-- C8 counterexample: on an order id absent from the store, the first
delivery of a valid callback creates a minimal record and returns before
applying the callback metadata, so the second delivery changes the stored
record (it adds the `robokassa` data): handling the callback twice is not
the same as handling it once. -/
theorem C8_counterexample :
    (payment_result defaultConfig c8Form []).1 = Resp.okText "OK1001" ∧
    (dictGet (payment_result defaultConfig c8Form []).2 "1001").map Order.status =
      some "paid" ∧
    (payment_result defaultConfig c8Form ((payment_result defaultConfig c8Form []).2)).2 ≠
      (payment_result defaultConfig c8Form []).2 := by
  decide

/-- C8 (amended): for an order id *present* in the store (with the usual
distinct-key store), handling the same callback twice through
`payment_result` produces exactly the same response and store as handling
it once, and a valid callback leaves the order in state `paid`; for an
unknown id the second delivery additionally records the callback metadata
the first minimal record lacks (see the counterexample). -/
theorem C8_idempotent_for_known_orders (cfg : Config) (form : List (String × String))
    (s : Store) (invId : String) (hnd : (s.map Prod.fst).Nodup)
    (hinv : dictGet form "InvId" = some invId) (hne : invId ≠ "")
    (hpres : (dictGet s invId).isSome = true) :
    payment_result cfg form ((payment_result cfg form s).2) = payment_result cfg form s ∧
    (verify_signature_from_result ((dictGet form "OutSum").getD "") invId
        ((dictGet form "SignatureValue").getD "") cfg.password2 (extract_shp form) = true →
      (dictGet (payment_result cfg form s).2 invId).map Order.status = some "paid") := by
  by_cases hv : verify_signature_from_result ((dictGet form "OutSum").getD "") invId
      ((dictGet form "SignatureValue").getD "") cfg.password2 (extract_shp form) = true
  · obtain ⟨o, ho⟩ := Option.isSome_iff_exists.mp hpres
    have r1 : payment_result cfg form s = (Resp.okText ("OK" ++ invId),
        update_order_status s invId "paid"
          (some ⟨(dictGet form "OutSum").getD "", extract_shp form⟩)) := by
      simp only [payment_result, hinv]
      rw [if_neg hne, if_neg (by simp [hv])]
    have hget1 : dictGet (update_order_status s invId "paid"
        (some ⟨(dictGet form "OutSum").getD "", extract_shp form⟩)) invId =
        some { o with status := "paid",
                      robokassa := some ⟨(dictGet form "OutSum").getD "",
                                         extract_shp form⟩ } := by
      rw [dictGet_update_order_status, if_pos rfl, ho]
    have hnd1 : ((update_order_status s invId "paid"
        (some ⟨(dictGet form "OutSum").getD "", extract_shp form⟩)).map Prod.fst).Nodup := by
      unfold update_order_status
      cases dictGet s invId
      · exact nodupKeys_dictInsert _ _ _ hnd
      · exact nodupKeys_dictInsert _ _ _ hnd
    constructor
    · have r2 : payment_result cfg form (update_order_status s invId "paid"
          (some ⟨(dictGet form "OutSum").getD "", extract_shp form⟩)) =
          (Resp.okText ("OK" ++ invId),
           update_order_status (update_order_status s invId "paid"
             (some ⟨(dictGet form "OutSum").getD "", extract_shp form⟩)) invId "paid"
             (some ⟨(dictGet form "OutSum").getD "", extract_shp form⟩)) := by
        simp only [payment_result, hinv]
        rw [if_neg hne, if_neg (by simp [hv])]
      rw [r1]
      dsimp only
      rw [r2]
      have hupd2 : update_order_status (update_order_status s invId "paid"
          (some ⟨(dictGet form "OutSum").getD "", extract_shp form⟩)) invId "paid"
          (some ⟨(dictGet form "OutSum").getD "", extract_shp form⟩) =
          update_order_status s invId "paid"
            (some ⟨(dictGet form "OutSum").getD "", extract_shp form⟩) := by
        conv_lhs => rw [update_order_status]
        rw [hget1]
        exact dictInsert_get_self hnd1 hget1
      rw [hupd2]
    · intro _
      rw [r1]
      dsimp only
      rw [status_update_order_status, if_pos rfl]
  · have r1 : payment_result cfg form s = (Resp.badRequest "Invalid signature", s) := by
      simp only [payment_result, hinv]
      rw [if_neg hne, if_pos hv]
    refine ⟨?_, fun h => absurd h hv⟩
    rw [r1]
    dsimp only
    rw [r1]

/-- Witness for C8 (amended) at a concrete known order. -/
theorem C8_idempotent_for_known_orders_witness :
    payment_result defaultConfig c8Form
        ((payment_result defaultConfig c8Form
          [("1001", (⟨"1001", none, none, "pending", [], none⟩ : Order))]).2) =
      payment_result defaultConfig c8Form
        [("1001", (⟨"1001", none, none, "pending", [], none⟩ : Order))] :=
  (C8_idempotent_for_known_orders defaultConfig c8Form
    [("1001", ⟨"1001", none, none, "pending", [], none⟩)] "1001"
    (by decide) (by decide) (by decide) (by decide)).1

/-- C10 counterexample: `create_order` performs no positivity or
non-emptiness validation: it accepts amount `-5` (and a whitespace-only
description, stripped to empty) and creates the records, answering with a
redirect rather than an HTTP 400. -/
theorem C10_counterexample :
    (create_order [("amount", "-5"), ("description", "x")] []).1 = Resp.redirect "index" ∧
    dictGet (create_order [("amount", "-5"), ("description", "x")] []).2 "1000" =
      some ⟨"1000", some ⟨-5, 0⟩, some "x", "created", [("user", "demo")], none⟩ ∧
    ((-5 : Int) ≤ 0) ∧
    (create_order [("amount", "5"), ("description", " ")] []).1 = Resp.redirect "index" ∧
    dictGet (create_order [("amount", "5"), ("description", " ")] []).2 "1000" =
      some ⟨"1000", some ⟨5, 0⟩, some "", "created", [("user", "demo")], none⟩ := by
  decide

/-- C10 (amended): the `amount > 0` / non-empty-description checks are not
enforced at order creation (`create_order` rejects only amounts `Decimal`
cannot parse, see the counterexample); they are enforced synchronously with
an HTTP 400 by `create_payment`, which rejects a non-positive amount or an
empty/missing description and leaves the store unchanged. -/
theorem C10_validation_happens_at_payment_creation (cfg : Config)
    (form : List (String × String)) (s : Store) (oid : String) (order : Order) (a : Dec)
    (hfo : dictGet form "order_id" = some oid) (hne : oid ≠ "")
    (hso : dictGet s oid = some order) (ham : order.amount = some a) :
    (a.m ≤ 0 → create_payment cfg form s = (Resp.badRequest "Amount must be positive", s)) ∧
    (0 < a.m → (order.description = none ∨ order.description = some "") →
      create_payment cfg form s = (Resp.badRequest "Description required", s)) := by
  constructor
  · intro hle
    simp only [create_payment, hfo]
    rw [if_neg hne, hso]
    dsimp only
    rw [ham]
    dsimp only
    rw [if_pos hle]
  · intro hpos hdesc
    simp only [create_payment, hfo]
    rw [if_neg hne, hso]
    dsimp only
    rw [ham]
    dsimp only
    rw [if_neg (by omega : ¬ a.m ≤ 0)]
    rcases hdesc with h | h <;> rw [h] <;> simp

/-- Witness for C10 (amended) at concrete inputs. -/
theorem C10_validation_happens_at_payment_creation_witness :
    create_payment defaultConfig [("order_id", "7")]
        [("7", (⟨"7", some ⟨-5, 0⟩, some "x", "created", [], none⟩ : Order))] =
      (Resp.badRequest "Amount must be positive",
       [("7", (⟨"7", some ⟨-5, 0⟩, some "x", "created", [], none⟩ : Order))]) ∧
    create_payment defaultConfig [("order_id", "8")]
        [("8", (⟨"8", some ⟨5, 0⟩, some "", "created", [], none⟩ : Order))] =
      (Resp.badRequest "Description required",
       [("8", (⟨"8", some ⟨5, 0⟩, some "", "created", [], none⟩ : Order))]) := by
  constructor
  · exact (C10_validation_happens_at_payment_creation defaultConfig [("order_id", "7")]
      [("7", ⟨"7", some ⟨-5, 0⟩, some "x", "created", [], none⟩)] "7"
      ⟨"7", some ⟨-5, 0⟩, some "x", "created", [], none⟩ ⟨-5, 0⟩
      (by decide) (by decide) (by decide) rfl).1 (by decide)
  · exact (C10_validation_happens_at_payment_creation defaultConfig [("order_id", "8")]
      [("8", ⟨"8", some ⟨5, 0⟩, some "", "created", [], none⟩)] "8"
      ⟨"8", some ⟨5, 0⟩, some "", "created", [], none⟩ ⟨5, 0⟩
      (by decide) (by decide) (by decide) rfl).2 (by decide) (Or.inr rfl)


/-- Witness for C3 at a concrete non-empty extension map inserted out of
order. -/
theorem C3_build_signature_formula_witness :
    dictGet (build_payment_params "robo-demo" "password1" "99.90" "1001" (some "Order")
        [("user", "42"), ("acct", "7")] true []) "SignatureValue" =
      some (md5_upper ("robo-demo" ++ ":" ++ "99.90" ++ ":" ++ "1001" ++ ":" ++ "password1" ++
        (if ([("user", "42"), ("acct", "7")] : List (String × String)) = [] then ""
         else ":" ++ format_shp_part [("user", "42"), ("acct", "7")]))) :=
  C3_build_signature_formula.1 "robo-demo" "password1" "99.90" "1001" (some "Order")
    [("user", "42"), ("acct", "7")] true (by decide)
